import Mathlib

/-!
Verification development for the Spyral trajectory-reconstruction pipeline.

Shallow embedding of the following source files:
- src/Tests/Phase5Test.py          (physics-solver test driver: ODE right-hand
  side, objective function, Nelder-Mead record emission)
- src/spyral/core/estimator.py     (phase-3 estimator)
- src/spyral/correction/generate.py (drift-correction grid generator)
- src/spyral/trace/frib_event.py   (FRIBDAQ trace pre-processing)
- src/spyral/plot/cut.py           (2-D particle-ID cuts)

Python floats are modelled by real numbers, except where a claim is about
IEEE special values; there a small tagged value type `FV` models finite /
infinite / NaN results of a division.  Calls into external libraries
(scipy optimiser internals, scipy.stats.linregress, contourpy contour
generation, the BilinearInterpolator and geometry modules that are not part
of the source tree, numpy FFT, matplotlib point-in-polygon) appear as
function parameters, so every theorem quantifies over their behaviour.
-/

noncomputable section
open Classical

namespace Spyral

/-- First index of the maximum of a list (auxiliary accumulator form);
mirrors `np.argmax`, which returns the first occurrence and replaces the
running maximum only on a strictly larger value. -/
def argmaxAux : List ℝ → ℕ → ℕ → ℝ → ℕ
  | [], _, best, _ => best
  | v :: rest, i, best, bv =>
      if bv < v then argmaxAux rest (i + 1) i v else argmaxAux rest (i + 1) best bv

/-- `np.argmax` over a list of reals (0 on the empty list, which raises in numpy). -/
def argmax (l : List ℝ) : ℕ :=
  match l with
  | [] => 0
  | v :: rest => argmaxAux rest 1 0 v

/-- First index of the minimum of a list (auxiliary accumulator form);
mirrors `np.argsort(..)[0]`, which by stability is the first occurrence of
the minimum. -/
def argminAux : List ℝ → ℕ → ℕ → ℝ → ℕ
  | [], _, best, _ => best
  | v :: rest, i, best, bv =>
      if v < bv then argminAux rest (i + 1) i v else argminAux rest (i + 1) best bv

/-- `np.argsort(l)[0]` over a list of reals (0 on the empty list). -/
def argmin (l : List ℝ) : ℕ :=
  match l with
  | [] => 0
  | v :: rest => argminAux rest 1 0 v

/-- `np.min` over a list of reals (0 on the empty list, which raises in numpy). -/
def listMin : List ℝ → ℝ
  | [] => 0
  | v :: rest => rest.foldl min v

/-- `np.arctan2 y x`, modelled as the argument of the complex number `x + i y`. -/
def arctan2 (y x : ℝ) : ℝ := Complex.arg ⟨x, y⟩

namespace Phase5

/-- A 3-D position, as one row of `sol.y.T[:, :3]` or `subset[i, :3]`. -/
abbrev V3 := ℝ × ℝ × ℝ

/-- Euclidean distance between two 3-D points (`np.linalg.norm(a - b)`). -/
def dist3 (a b : V3) : ℝ :=
  Real.sqrt ((a.1 - b.1) ^ 2 + (a.2.1 - b.2.1) ^ 2 + (a.2.2 - b.2.2) ^ 2)

/-- `C = 2.99792e8` from Phase5Test.py (speed of light, m/s). -/
def Cspeed : ℝ := 2.99792e8

/-- `amuev = 931.494028` from Phase5Test.py (amu in MeV/c^2). -/
def amuev : ℝ := 931.494028

/-- Relativistic kinetic energy of a particle with speed `v`:
`E = amuev * (1 / sqrt(1 - (v/C)^2) - 1)` (Phase5Test.py line 30). -/
def kineticE (v : ℝ) : ℝ :=
  amuev * (1 / Real.sqrt (1 - (v / Cspeed) ^ 2) - 1)

/-- State vector `[x, y, z, vx, vy, vz]` of the ODE. -/
structure PState where
  x : ℝ
  y : ℝ
  z : ℝ
  vx : ℝ
  vy : ℝ
  vz : ℝ

/-- Speed `sqrt(vx^2 + vy^2 + vz^2)` of a state (both `rr` and `vv` in the source). -/
def speed (s : PState) : ℝ := Real.sqrt (s.vx ^ 2 + s.vy ^ 2 + s.vz ^ 2)

/-- The ODE right-hand side `motionIVP` of Phase5Test.py.  The module-level
globals `q, m, dens, Efield, Bfield` and the tabulated stopping-power
interpolator `dEdx_interp` are passed as parameters.  The Python function
returns the scalar `1` instead of a derivative list when the kinetic energy
leaves `[0.001, 50]` MeV, aborting the integration; that abort sentinel is
modelled as `none`.  The returned `PState` holds the derivative
`[vx, vy, vz, dvx/dt, dvy/dt, dvz/dt]`. -/
def motionIVP (q m dens : ℝ) (Efield Bfield : V3) (dEdx_interp : ℝ → ℝ)
    (vec : PState) : Option PState :=
  let azi := arctan2 vec.vy vec.vx
  let pol := Real.arccos (vec.vz / speed vec)
  let E := kineticE (speed vec)
  if E < 0.001 ∨ E > 50 then none
  else
    let st := dEdx_interp E * 1000 * 1.6021773349e-13 * (dens * 100) / m
    some
      { x := vec.vx, y := vec.vy, z := vec.vz
        vx := (q / m) * (Efield.1 + vec.vy * Bfield.2.2 - vec.vz * Bfield.2.1)
              - st * Real.sin pol * Real.cos azi
        vy := (q / m) * (Efield.2.1 + vec.vz * Bfield.1 - vec.vx * Bfield.2.2)
              - st * Real.sin pol * Real.sin azi
        vz := (q / m) * (Efield.2.2 + vec.vx * Bfield.2.1 - vec.vy * Bfield.1)
              - st * Real.cos pol }

/-- The `objective` function of Phase5Test.py: mean over the cluster points
of the minimum Euclidean distance from each point to the trajectory points.
`np.min` on an empty trajectory raises in numpy; `listMin` returns 0 there. -/
def objective (guess subset : List V3) : ℝ :=
  (subset.map fun s => listMin (guess.map fun g => dist3 g s)).sum / subset.length

/-- Modelled from the spec: the production solver (src/spyral/core/solver.py is
not under src/) sets the objective for a trial to `+∞` when the ODE
integration aborts, "so the minimiser steers away".  An aborted trajectory is
`none`. -/
def trialObjective (traj : Option (List V3)) (subset : List V3) : EReal :=
  match traj with
  | none => ⊤
  | some g => ((objective g subset : ℝ) : EReal)

/-- A trial parameter vector `[polar, azimuth, brho, xvert, yvert, zvert]`
as handled by the Nelder-Mead minimiser in `Phase5` (angles in degrees,
brho in T·m, vertex in mm). -/
structure FitParams where
  polar : ℝ
  azimuth : ℝ
  brho : ℝ
  xvert : ℝ
  yvert : ℝ
  zvert : ℝ

/-- `np.clip(x, lo, hi)`: clamp a scalar into an interval. -/
def clamp (lo hi x : ℝ) : ℝ := min (max x lo) hi

/-- Modelled from the spec: scipy's bounded Nelder-Mead keeps every trial
point (and hence the returned solution `res.x`) inside the `bounds` passed at
the call site by clipping each coordinate.  The bounds are those of
Phase5Test.py lines 142-147: `(0, 180), (0, 360), (0, 5)` and the vertex
coordinates fixed at their initial values. -/
def clipParams (init p : FitParams) : FitParams :=
  { polar := clamp 0 180 p.polar
    azimuth := clamp 0 360 p.azimuth
    brho := clamp 0 5 p.brho
    xvert := clamp init.xvert init.xvert p.xvert
    yvert := clamp init.yvert init.yvert p.yvert
    zvert := clamp init.zvert init.zvert p.zvert }

/-- One row appended to `all_results_seg` in `Phase5` (Phase5Test.py line 151):
the minimiser output `res.x` (a clipped trial vector) together with the
objective value recomputed on the solved trajectory. -/
def emittedRecord (init raw : FitParams) (guess subset : List V3) : FitParams × ℝ :=
  (clipParams init raw, objective guess subset)

end Phase5

namespace Estimator

/-- The `Direction` enum of estimator.py (values -1, 0, 1). -/
inductive Direction where
  | NONE : Direction
  | FORWARD : Direction
  | BACKWARD : Direction
deriving DecidableEq

/-- The integer `value` of a `Direction` member. -/
def Direction.value : Direction → ℤ
  | Direction.NONE => -1
  | Direction.FORWARD => 0
  | Direction.BACKWARD => 1

/-- One row of `cluster.data`: columns `[x, y, z, charge]` (mm, mm, mm, ADC). -/
structure Pt where
  x : ℝ
  y : ℝ
  z : ℝ
  q : ℝ

/-- Default point used for (never-taken in valid runs) empty-list head access. -/
def pt0 : Pt := ⟨0, 0, 0, 0⟩

/-- `np.linalg.norm(p[:2])`: cylindrical radius of a point. -/
def rho (p : Pt) : ℝ := Real.sqrt (p.x ^ 2 + p.y ^ 2)

/-- Euclidean distance in the (x, y) plane. -/
def dist2 (a b : ℝ × ℝ) : ℝ := Real.sqrt ((a.1 - b.1) ^ 2 + (a.2 - b.2) ^ 2)

/-- Euclidean distance between two cluster points in 3-D (columns `[:3]`). -/
def dist3p (a b : Pt) : ℝ :=
  Real.sqrt ((a.x - b.x) ^ 2 + (a.y - b.y) ^ 2 + (a.z - b.z) ^ 2)

/-- A cluster as consumed by `estimate_physics`. -/
structure Cluster where
  event : ℤ
  label : ℤ
  data : List Pt

/-- The fields of `EstimateParameters` used by `estimate_physics`. -/
structure EstimateParameters where
  min_total_trajectory_points : ℕ
  max_distance_from_beam_axis : ℝ

/-- The fields of `DetectorParameters` used by `estimate_physics`. -/
structure DetectorParameters where
  magnetic_field : ℝ
  beam_region_radius : ℝ

/-- The geometry and regression routines called by estimator.py whose code is
not part of the source tree: `least_squares_circle` and
`generate_circle_points` live in the absent module spyral/geometry/circle.py
and `linregress` is scipy.  `lsq` returns `(center_x, center_y, radius,
residual)`; `linregress` takes the x-list and y-list and returns
`(slope, intercept)`. -/
structure GeomOracle where
  lsq : List (ℝ × ℝ) → ℝ × ℝ × ℝ × ℝ
  genCircle : ℝ → ℝ → ℝ → List (ℝ × ℝ)
  linregress : List ℝ → List ℝ → ℝ × ℝ

/-- Number of points of `data` with `np.linalg.norm(p[:2]) < r` (the points
counted by the beam-region check, lines 68-75). -/
def beamCount (r : ℝ) : List Pt → ℕ
  | [] => 0
  | p :: rest => (if rho p < r then 1 else 0) + beamCount r rest

/-- `beam_region_fraction` of estimator.py lines 68-75. -/
def beamFraction (r : ℝ) (data : List Pt) : ℝ :=
  (beamCount r data : ℝ) / (data.length : ℝ)

/-- The first rejection guard (line 66): too few points. -/
def tooFewPoints (ep : EstimateParameters) (cl : Cluster) : Prop :=
  cl.data.length < ep.min_total_trajectory_points

/-- The second rejection guard (line 76): beam-region fraction above 0.9. -/
def beamReject (dp : DetectorParameters) (cl : Cluster) : Prop :=
  (9 / 10 : ℝ) < beamFraction dp.beam_region_radius cl.data

/-- `begin_radius` (lines 85-88): circle-fit radius of the first half
`data[:halfway]` where `halfway = int(len(data) * 0.5)`. -/
def beginRadius (g : GeomOracle) (data : List Pt) : ℝ :=
  (g.lsq ((data.take (data.length / 2)).map fun p => (p.x, p.y))).2.2.1

/-- `end_radius` (lines 89-91): circle-fit radius of the second half `data[halfway:]`. -/
def endRadius (g : GeomOracle) (data : List Pt) : ℝ :=
  (g.lsq ((data.drop (data.length / 2)).map fun p => (p.x, p.y))).2.2.1

/-- Direction inference, estimator.py lines 92-106:
if the (first) index of the maximum rho exceeds `0.9 * len(rhos)`, compare
the end-point radii; otherwise compare the two half-cluster circle fits. -/
def directionOf (g : GeomOracle) (data : List Pt) : Direction :=
  let rhos := data.map rho
  if (9 / 10 : ℝ) * (data.length : ℝ) < (argmax rhos : ℝ) then
    if rhos.headD 0 < rhos.getLastD 0 then Direction.FORWARD else Direction.BACKWARD
  else if beginRadius g data < endRadius g data then Direction.BACKWARD
  else Direction.FORWARD

/-- Lines 108-110: when the direction is backward the cluster point order is
reversed (`np.flip` along axis 0, which in the source mutates `cluster.data`). -/
def orient (g : GeomOracle) (data : List Pt) : List Pt :=
  if directionOf g data = Direction.BACKWARD then data.reverse else data

/-- `maximum` (lines 116-117): index of the maximum distance-to-vertex taken
over `data[1:]`, with the first point as the vertex guess. -/
def maximumOf (d : List Pt) : ℕ :=
  let p0 := d.headD pt0
  argmax ((d.drop 1).map fun p => dist2 (p.x, p.y) (p0.x, p0.y))

/-- `first_arc = cluster.data[:maximum + 1]` (line 118). -/
def firstArcOf (d : List Pt) : List Pt := d.take (maximumOf d + 1)

/-- The circle fit to the first arc (lines 121-123): `(center_x, center_y,
radius, residual)`. -/
def circleFitOf (g : GeomOracle) (d : List Pt) : ℝ × ℝ × ℝ × ℝ :=
  g.lsq ((firstArcOf d).map fun p => (p.x, p.y))

/-- The generated dense circle points (line 124). -/
def circlePointsOf (g : GeomOracle) (d : List Pt) : List (ℝ × ℝ) :=
  g.genCircle (circleFitOf g d).1 (circleFitOf g d).2.1 (circleFitOf g d).2.2.1

/-- Re-estimated (x, y) vertex (lines 126-127): the generated circle point of
minimum norm, i.e. closest to the beam axis. -/
def vertexXYOf (g : GeomOracle) (d : List Pt) : ℝ × ℝ :=
  (circlePointsOf g d).getD
    (argmin ((circlePointsOf g d).map fun c => Real.sqrt (c.1 ^ 2 + c.2 ^ 2))) (0, 0)

/-- `test_index = max(10, int(maximum * 0.5))` (line 132). -/
def testIndexOf (d : List Pt) : ℕ := max 10 (maximumOf d / 2)

/-- The linear fit of line 133: `linregress(data[:test_index, 2],
rho_to_vertex[:test_index])` returning `(slope, intercept)`, where
`rho_to_vertex` is recomputed against the re-estimated vertex (line 129). -/
def linFitOf (g : GeomOracle) (d : List Pt) : ℝ × ℝ :=
  g.linregress ((d.take (testIndexOf d)).map fun p => p.z)
    ((d.take (testIndexOf d)).map fun p => dist2 (p.x, p.y) (vertexXYOf g d))

/-- `vertex_rho = np.linalg.norm(vertex[:2])` (line 134). -/
def vertexRhoOf (g : GeomOracle) (d : List Pt) : ℝ :=
  Real.sqrt ((vertexXYOf g d).1 ^ 2 + (vertexXYOf g d).2 ^ 2)

/-- `vertex[2] = (vertex_rho - intercept) / slope` (line 135). -/
def vertexZOf (g : GeomOracle) (d : List Pt) : ℝ :=
  (vertexRhoOf g d - (linFitOf g d).2) / (linFitOf g d).1

/-- `polar` (lines 142-144): `atan(slope)`, plus pi for a backward track. -/
def polarOf (g : GeomOracle) (d : List Pt) (dir : Direction) : ℝ :=
  if dir = Direction.BACKWARD then Real.arctan (linFitOf g d).1 + Real.pi
  else Real.arctan (linFitOf g d).1

/-- `azimuthal` (lines 147-152): `atan2` of the vertex relative to the circle
center, normalised to `[0, 2*pi)`, then shifted by `-3*pi/2` and re-normalised. -/
def azimuthalOf (g : GeomOracle) (d : List Pt) : ℝ :=
  let c := circleFitOf g d
  let v := vertexXYOf g d
  let a0 := arctan2 (v.2 - c.2.1) (v.1 - c.1)
  let a1 := if a0 < 0 then a0 + 2 * Real.pi else a0
  let a2 := a1 - Real.pi * 1.5
  if a2 < 0 then a2 + 2 * Real.pi else a2

/-- `brho` line 154: `magnetic_field * radius * 0.001 / sin(polar)`.  In this
real-valued model division by zero yields 0, so the `np.isnan` guard of lines
155-156 folds away; the IEEE behaviour of these two lines is modelled
separately by `FloatModel.brhoFinal`. -/
def brhoOf (g : GeomOracle) (d : List Pt) (dp : DetectorParameters)
    (dir : Direction) : ℝ :=
  dp.magnetic_field * (circleFitOf g d).2.2.1 * 0.001 / Real.sin (polarOf g d dir)

/-- Sum of consecutive 3-D step lengths (used for `arclength`, lines 158-160). -/
def arcAux : List Pt → ℝ
  | [] => 0
  | [_] => 0
  | a :: b :: rest => dist3p a b + arcAux (b :: rest)

/-- `arclength` over the first arc (lines 158-160). -/
def arclengthOf (d : List Pt) : ℝ := arcAux (firstArcOf d)

/-- `charge_deposited = np.sum(first_arc[:, 3])` (line 163). -/
def chargeOf (d : List Pt) : ℝ := ((firstArcOf d).map Pt.q).sum

/-- The while-loop of lines 169-180 accumulating `eloss` and `integral_len`
until the path length exceeds the 700 mm cutoff or the cluster ends; returns
`(eloss, cutoff_index)`. -/
def elossAux : List Pt → Pt → ℝ → ℝ → ℕ → ℝ × ℕ
  | [], _, _, el, idx => (el, idx)
  | p :: rest, prev, ilen, el, idx =>
      if ilen > 700 then (el, idx)
      else elossAux rest p (ilen + dist3p prev p) (el + p.q) (idx + 1)

/-- `eloss` and `cutoff_index` (lines 166-180), starting from the first point
with the distance from `data[0]` to the re-estimated vertex. -/
def elossOf (g : GeomOracle) (d : List Pt) : ℝ × ℕ :=
  let p0 := d.headD pt0
  let v := vertexXYOf g d
  let ilen0 := Real.sqrt ((p0.x - v.1) ^ 2 + (p0.y - v.2) ^ 2 + (p0.z - vertexZOf g d) ^ 2)
  elossAux (d.drop 1) p0 ilen0 p0.q 1

/-- The results accumulator dictionary of estimator.py lines 182-202: one list
per key. -/
structure Results where
  event : List ℤ
  cluster_index : List ℤ
  cluster_label : List ℤ
  ic_amplitude : List ℝ
  ic_centroid : List ℝ
  ic_integral : List ℝ
  vertex_x : List ℝ
  vertex_y : List ℝ
  vertex_z : List ℝ
  center_x : List ℝ
  center_y : List ℝ
  center_z : List ℝ
  polar : List ℝ
  azimuthal : List ℝ
  brho : List ℝ
  dEdx : List ℝ
  dE : List ℝ
  arclength : List ℝ
  direction : List ℤ
  eloss : List ℝ
  cutoff_index : List ℕ

/-- One appended row of results. -/
structure ResultRow where
  event : ℤ
  cluster_index : ℤ
  cluster_label : ℤ
  ic_amplitude : ℝ
  ic_centroid : ℝ
  ic_integral : ℝ
  vertex_x : ℝ
  vertex_y : ℝ
  vertex_z : ℝ
  center_x : ℝ
  center_y : ℝ
  center_z : ℝ
  polar : ℝ
  azimuthal : ℝ
  brho : ℝ
  dEdx : ℝ
  dE : ℝ
  arclength : ℝ
  direction : ℤ
  eloss : ℝ
  cutoff_index : ℕ

/-- Append one value to every list of the accumulator (lines 182-202). -/
def Results.push (r : Results) (w : ResultRow) : Results where
  event := r.event ++ [w.event]
  cluster_index := r.cluster_index ++ [w.cluster_index]
  cluster_label := r.cluster_label ++ [w.cluster_label]
  ic_amplitude := r.ic_amplitude ++ [w.ic_amplitude]
  ic_centroid := r.ic_centroid ++ [w.ic_centroid]
  ic_integral := r.ic_integral ++ [w.ic_integral]
  vertex_x := r.vertex_x ++ [w.vertex_x]
  vertex_y := r.vertex_y ++ [w.vertex_y]
  vertex_z := r.vertex_z ++ [w.vertex_z]
  center_x := r.center_x ++ [w.center_x]
  center_y := r.center_y ++ [w.center_y]
  center_z := r.center_z ++ [w.center_z]
  polar := r.polar ++ [w.polar]
  azimuthal := r.azimuthal ++ [w.azimuthal]
  brho := r.brho ++ [w.brho]
  dEdx := r.dEdx ++ [w.dEdx]
  dE := r.dE ++ [w.dE]
  arclength := r.arclength ++ [w.arclength]
  direction := r.direction ++ [w.direction]
  eloss := r.eloss ++ [w.eloss]
  cutoff_index := r.cutoff_index ++ [w.cutoff_index]

/-- The lengths of all 21 lists of the accumulator. -/
def Results.lengths (r : Results) : List ℕ :=
  [r.event.length, r.cluster_index.length, r.cluster_label.length,
   r.ic_amplitude.length, r.ic_centroid.length, r.ic_integral.length,
   r.vertex_x.length, r.vertex_y.length, r.vertex_z.length,
   r.center_x.length, r.center_y.length, r.center_z.length,
   r.polar.length, r.azimuthal.length, r.brho.length,
   r.dEdx.length, r.dE.length, r.arclength.length,
   r.direction.length, r.eloss.length, r.cutoff_index.length]

/-- The empty accumulator. -/
def emptyResults : Results :=
  ⟨[], [], [], [], [], [], [], [], [], [], [], [], [], [], [], [], [], [], [], [], []⟩

/-- `estimate_physics` of estimator.py, parameterised over the external
geometry/regression routines `g`.  Returns the updated accumulator; the four
early `return`s of the source (too few points, beam-dominated, vertex too far
from the beam axis, zero arclength) leave it untouched. -/
def estimate_physics (g : GeomOracle) (cluster_index : ℤ) (cluster : Cluster)
    (ic_amplitude ic_centroid ic_integral : ℝ) (ep : EstimateParameters)
    (dp : DetectorParameters) (results : Results) : Results :=
  if tooFewPoints ep cluster then results
  else if beamReject dp cluster then results
  else
    let dir := directionOf g cluster.data
    let d := orient g cluster.data
    if ep.max_distance_from_beam_axis < vertexRhoOf g d then results
    else if arclengthOf d = 0 then results
    else
      results.push
        { event := cluster.event
          cluster_index := cluster_index
          cluster_label := cluster.label
          ic_amplitude := ic_amplitude
          ic_centroid := ic_centroid
          ic_integral := ic_integral
          vertex_x := (vertexXYOf g d).1
          vertex_y := (vertexXYOf g d).2
          vertex_z := vertexZOf g d
          center_x := (circleFitOf g d).1
          center_y := (circleFitOf g d).2.1
          center_z := vertexZOf g d
          polar := polarOf g d dir
          azimuthal := azimuthalOf g d
          brho := brhoOf g d dp dir
          dEdx := chargeOf d / arclengthOf d
          dE := chargeOf d
          arclength := arclengthOf d
          direction := dir.value
          eloss := (elossOf g d).1
          cutoff_index := (elossOf g d).2 }

/-- Concrete geometry oracle for witnesses: the circle fit returns the number
of fitted points as the radius, the generated circle is empty, and the linear
fit is zero. -/
def gW : GeomOracle :=
  ⟨fun l => (0, 0, (l.length : ℝ), 0), fun _ _ _ => [], fun _ _ => (0, 0)⟩

/-- Concrete three-point cluster for witnesses, with radii 1, 2, 3. -/
def clW : Cluster := ⟨0, 0, [⟨1, 0, 0, 0⟩, ⟨2, 0, 0, 0⟩, ⟨3, 0, 0, 0⟩]⟩

/-- Concrete one-point cluster for witnesses. -/
def clOne : Cluster := ⟨0, 0, [⟨1, 0, 0, 0⟩]⟩

/-- Concrete two-point cluster for witnesses. -/
def clTwo : Cluster := ⟨0, 0, [⟨1, 0, 0, 0⟩, ⟨2, 0, 0, 0⟩]⟩

/-- Concrete empty cluster for witnesses. -/
def clZero : Cluster := ⟨0, 0, []⟩

/-- Witness estimate parameters: at least one point, vertex cut at 0. -/
def epW : EstimateParameters := ⟨1, 0⟩

/-- Witness estimate parameters with `min_total_trajectory_points = 2`. -/
def epTwo : EstimateParameters := ⟨2, 0⟩

/-- Witness detector parameters: zero field and zero beam-region radius. -/
def dpW : DetectorParameters := ⟨0, 0⟩

end Estimator

namespace FloatModel

/-- A float value: finite real, positive or negative infinity, or NaN.  Used
only where a claim is about IEEE special values. -/
inductive FV where
  | fin : ℝ → FV
  | inf : FV
  | ninf : FV
  | nan : FV

/-- `np.isnan`. -/
def FV.isnan : FV → Bool
  | FV.nan => true
  | _ => false

/-- IEEE division of two finite doubles (numpy float64 semantics): a nonzero
numerator over zero gives a signed infinity, `0.0 / 0.0` gives NaN. -/
def fdiv (a b : ℝ) : FV :=
  if b ≠ 0 then FV.fin (a / b)
  else if 0 < a then FV.inf
  else if a < 0 then FV.ninf
  else FV.nan

/-- estimator.py line 154 under IEEE float64 semantics:
`brho = magnetic_field * radius * 0.001 / sin(polar)`. -/
def brhoRaw (B radius polar : ℝ) : FV :=
  fdiv (B * radius * 0.001) (Real.sin polar)

/-- estimator.py lines 154-156 under IEEE float64 semantics: the NaN guard
`if np.isnan(brho): brho = 0.0`. -/
def brhoFinal (B radius polar : ℝ) : FV :=
  if (brhoRaw B radius polar).isnan then FV.fin 0 else brhoRaw B radius polar

end FloatModel

namespace Correction

/-- One whitespace-separated row of the Garfield input file:
`[x_initial, y_initial, x_final, y_final, z_final, time]` in cm
(columns c0..c5; generate.py reads columns 2..5). -/
structure GarfRow where
  c0 : ℝ
  c1 : ℝ
  c2 : ℝ
  c3 : ℝ
  c4 : ℝ
  c5 : ℝ

/-- Default row for out-of-range access (never hit for well-formed data). -/
def grow0 : GarfRow := ⟨0, 0, 0, 0, 0, 0⟩

/-- A 2-D array modelled as a function of its indices. -/
abbrev Arr2 (α : Type) := ℕ → ℕ → α

/-- Point update of a 2-D array. -/
def upd2 {α : Type} (f : Arr2 α) (i j : ℕ) (v : α) : Arr2 α :=
  fun a b => if a = i ∧ b = j then v else f a b

/-- The mutable state of `generate_electron_correction` before interpolation:
`rho_final` (the final radial positions, mm), `misc_final` with its three
channels `(z final, transverse, time)`, and the zero-initialised `t_final`. -/
structure GenState where
  rho_final : Arr2 ℝ
  misc_final : Arr2 (ℝ × ℝ × ℝ)
  t_final : Arr2 ℝ

/-- `np.zeros`: the state right after the three array declarations
(generate.py lines 36-38). -/
def initState : GenState :=
  ⟨fun _ _ => 0, fun _ _ => (0, 0, 0), fun _ _ => 0⟩

/-- The body of the fill loop (generate.py lines 39-46) for one
`(chunk, row)` cell: distances converted to mm (times 10), time kept in ns.
`t_final` is not assigned. -/
def fillCell (data : List GarfRow) (s : GenState) (chunk row : ℕ) : GenState :=
  let gr := data.getD (chunk * 55 + row) grow0
  { s with
    rho_final := upd2 s.rho_final chunk row (gr.c3 * 10)
    misc_final := upd2 s.misc_final chunk row (gr.c2 * 10, gr.c4 * 10, gr.c5) }

/-- The inner `for row in range(chunk_size)` loop for one chunk. -/
def fillChunk (data : List GarfRow) (chunk : ℕ) (s : GenState) : GenState :=
  (List.range 55).foldl (fun t row => fillCell data t chunk row) s

/-- The outer `for chunk in range(n_chunks)` loop. -/
def fillLoop (data : List GarfRow) (n_chunks : ℕ) (s : GenState) : GenState :=
  (List.range n_chunks).foldl (fun t chunk => fillChunk data chunk t) s

/-- The midpoint-subtraction loop (generate.py lines 48-50): for every chunk,
subtract the chunk midpoint (row 27) time from the whole time channel. -/
def midAdjust (n_chunks : ℕ) (s : GenState) : GenState :=
  { s with
    misc_final := fun c r =>
      if c < n_chunks ∧ r < 55 then
        let m := s.misc_final c r
        (m.1, m.2.1, m.2.2 - (s.misc_final c 27).2.2)
      else s.misc_final c r }

/-- The scalar of generate.py line 52:
`detector_length / ((window_time_bucket - micromegas_time_bucket) * (1/get_frequency * 1000))`. -/
def tScale (detector_length window_tb micromegas_tb get_frequency : ℝ) : ℝ :=
  detector_length / ((window_tb - micromegas_tb) * (1 / get_frequency * 1000))

/-- Line 52 itself: `t_final *= tScale ...`. -/
def applyTLine (scale : ℝ) (s : GenState) : GenState :=
  { s with t_final := fun a b => s.t_final a b * scale }

/-- The state after the fill and midpoint loops, with `n_chunks =
int(len(garfield_data) / chunk_size)`. -/
def stateAfterFill (data : List GarfRow) : GenState :=
  midAdjust (data.length / 55) (fillLoop data (data.length / 55) initState)

/-- `np.linspace a b n` at index `i` (with endpoint). -/
def linspace (a b : ℝ) (n : ℕ) (i : ℕ) : ℝ := a + (b - a) * i / ((n : ℝ) - 1)

/-- The body of the grid loop (generate.py lines 70-78) for one target cell
`(r, z)`; `initialRho` stands for `interpolate_initial_rho(contour, z, r)`
(whose internals are contourpy plus `np.interp`, both external) and `interp`
for `BilinearInterpolator.interpolate` (module spyral/interpolate absent from
the source tree; it returns the three channels of `misc_final`).
The correction `rho_cor = initialRho - r` is stored in channel 0 and the
interpolator is evaluated at `(zg, rho_cor)` for channels 1 and 2. -/
def correction_cell (initialRho : ℝ → ℝ → ℝ) (interp : ℝ → ℝ → ℝ × ℝ × ℝ)
    (r z : ℝ) : ℝ × ℝ × ℝ :=
  let zg := (1 - z * 0.001) * 970 + 30
  let rho_cor := initialRho z r - r
  (rho_cor, (interp zg rho_cor).2.1, (interp zg rho_cor).2.2)

/-- The populated `correction_grid` (lines 65-78): target cells at
`rho_points = linspace(0, 275, 276)` and `z_points = linspace(0, 1000, 1001)`. -/
def correction_grid (initialRho : ℝ → ℝ → ℝ) (interp : ℝ → ℝ → ℝ × ℝ × ℝ)
    (ridx zidx : ℕ) : ℝ × ℝ × ℝ :=
  correction_cell initialRho interp (linspace 0 275 276 ridx) (linspace 0 1000 1001 zidx)

/-- The cell computation as the claim reads the spec sentence: the transverse
and time shifts looked up at the inverted *initial* radius instead of at the
correction `rho_cor`.  Stated only for comparison with `correction_cell`. -/
def claimed_cell (initialRho : ℝ → ℝ → ℝ) (interp : ℝ → ℝ → ℝ × ℝ × ℝ)
    (r z : ℝ) : ℝ × ℝ × ℝ :=
  let zg := (1 - z * 0.001) * 970 + 30
  let rho_init := initialRho z r
  (rho_init - r, (interp zg rho_init).2.1, (interp zg rho_init).2.2)

/-- The claim's reading of the grid, built from `claimed_cell`. -/
def claimed_grid (initialRho : ℝ → ℝ → ℝ) (interp : ℝ → ℝ → ℝ × ℝ × ℝ)
    (ridx zidx : ℕ) : ℝ × ℝ × ℝ :=
  claimed_cell initialRho interp (linspace 0 275 276 ridx) (linspace 0 1000 1001 zidx)

/-- `generate_electron_correction`, parameterised over the constructors of the
bilinear interpolator (`mkInterp`, from `misc_final`) and of the contour
inverter (`mkContour`, from `rho_final`), with a flag selecting whether the
`t_final *= ...` statement of line 52 is executed.  Returns the grid. -/
def generate_electron_correction (withTLine : Bool) (data : List GarfRow)
    (scale : ℝ) (mkInterp : Arr2 (ℝ × ℝ × ℝ) → ℝ → ℝ → ℝ × ℝ × ℝ)
    (mkContour : Arr2 ℝ → ℝ → ℝ → ℝ) : ℕ → ℕ → ℝ × ℝ × ℝ :=
  let s2 := stateAfterFill data
  let s3 := if withTLine then applyTLine scale s2 else s2
  correction_grid (mkContour s3.rho_final) (mkInterp s3.misc_final)

/-- Concrete contour inverter for witnesses: initial rho constantly 15. -/
def invEx : ℝ → ℝ → ℝ := fun _ _ => 15

/-- Concrete bilinear interpolator for witnesses: every channel returns the
rho argument. -/
def interpEx : ℝ → ℝ → ℝ × ℝ × ℝ := fun _ p => (p, p, p)

end Correction

namespace Frib

/-- Edge smoothing of one trace (frib_event.py lines 214-215, applied
row-wise): `trace[0] = trace[1]` then `trace[-1] = trace[-2]`, sequentially. -/
def edgeSmooth (t : List ℝ) : List ℝ :=
  let s1 := t.set 0 (t.getD 1 0)
  s1.set (s1.length - 1) (s1.getD (s1.length - 2) 0)

/-- `np.mean` of a list (0 on the empty list). -/
def mean (l : List ℝ) : ℝ := l.sum / (l.length : ℝ)

/-- `np.std` of a list: population standard deviation. -/
def stdDev (l : List ℝ) : ℝ :=
  Real.sqrt ((l.map fun x => (x - mean l) ^ 2).sum / (l.length : ℝ))

/-- `row[~mask]`: the samples not exceeding `mean + 1.5 * sigma`
(frib_event.py line 222 with the mask negated). -/
def unmaskedAux (m s : ℝ) : List ℝ → List ℝ
  | [] => []
  | x :: rest =>
      if x - m > s * 1.5 then unmaskedAux m s rest else x :: unmaskedAux m s rest

/-- The baseline copy of one trace (frib_event.py lines 218-223): samples with
`row - mean > sigma * 1.5` are replaced by the mean of the unmasked samples. -/
def maskedBaseline (t : List ℝ) : List ℝ :=
  let m := mean t
  let s := stdDev t
  let repl := mean (unmaskedAux m s t)
  t.map fun x => if x - m > s * 1.5 then repl else x

/-- Element-wise subtraction of two traces. -/
def zipSub (a b : List ℝ) : List ℝ := List.zipWith (fun x y => x - y) a b

/-- `preprocess_frib_traces` (frib_event.py lines 210-234), with the event
matrix modelled as its list of traces (the source transposes to rows, works
row-wise, and transposes back) and the Fourier low-pass application
(`np.real(np.fft.ifft2(np.fft.fft2(bases) * fil))`, external numpy FFT acting
independently on each row) as the parameter `F`.  Edge smoothing happens
first, the baseline copy is built from the smoothed traces, the filter is
applied to the baseline copy, and the result is subtracted from the smoothed
traces. -/
def preprocess_frib_traces (F : List ℝ → List ℝ) (traces : List (List ℝ)) :
    List (List ℝ) :=
  let sm := traces.map edgeSmooth
  let bases := sm.map maskedBaseline
  let result := bases.map F
  List.zipWith zipSub sm result

end Frib

namespace Cut

/-- The JSON trees exchanged by `to_json_str` and `load_cut_json`; the
`json.dumps`/`json.loads` pair (Python standard library) is modelled as the
identity on these trees (Python serialises floats with shortest round-trip
repr, so numbers survive exactly). -/
inductive Json where
  | num : ℝ → Json
  | str : String → Json
  | arr : List Json → Json
  | obj : List (String × Json) → Json

/-- A `Cut2D` (cut.py lines 43-69): the name plus the polygon vertices held by
its matplotlib `Path` (which stores the vertex array unchanged). -/
structure Cut2D where
  name : String
  vertices : List (ℝ × ℝ)

/-- `is_point_inside` (cut.py line 55); the matplotlib
`Path.contains_point` predicate is external and passed as `contains`
(a function of the vertex list, since `Path` is built from the vertices with
`closed=False`). -/
def is_point_inside (contains : List (ℝ × ℝ) → ℝ × ℝ → Bool) (c : Cut2D)
    (pt : ℝ × ℝ) : Bool :=
  contains c.vertices pt

/-- `to_json_str` (cut.py lines 68-69): serialise as
`{"name": ..., "vertices": [[x, y], ...]}` (the JSON text is modelled at the
tree level). -/
def to_json_str (c : Cut2D) : Json :=
  Json.obj [(("name"), Json.str c.name),
            (("vertices"), Json.arr (c.vertices.map fun v => Json.arr [Json.num v.1, Json.num v.2]))]

/-- Dictionary key lookup (`cut_dict['name']` etc.). -/
def lookupKey : List (String × Json) → String → Option Json
  | [], _ => none
  | (k, v) :: rest, key => if k = key then some v else lookupKey rest key

/-- Reading one `[x, y]` vertex back from its JSON tree (a malformed entry
would make the matplotlib `Path` constructor fail in the source; here it
yields `none`). -/
def decodeVertex : Json → Option (ℝ × ℝ)
  | Json.arr [Json.num a, Json.num b] => some (a, b)
  | _ => none

/-- Reading the vertex list back. -/
def decodeVertices : List Json → Option (List (ℝ × ℝ))
  | [] => some []
  | j :: rest =>
      match decodeVertex j, decodeVertices rest with
      | some v, some vs => some (v :: vs)
      | _, _ => none

/-- `load_cut_json` (cut.py lines 81-92): check that the keys `name` and
`vertices` are present, then rebuild `Cut2D(cut_dict['name'],
cut_dict['vertices'])`. -/
def load_cut_json : Json → Option Cut2D
  | Json.obj fields =>
      match lookupKey fields ("name"), lookupKey fields ("vertices") with
      | some (Json.str n), some (Json.arr vs) =>
          match decodeVertices vs with
          | some verts => some ⟨n, verts⟩
          | none => none
      | _, _ => none
  | _ => none

end Cut

/-! ### Theorems -/

theorem getD_set_self {α : Type} (l : List α) (i : ℕ) (v d : α) (h : i < l.length) :
    (l.set i v).getD i d = v := by
  simp [List.getD_eq_getElem?_getD, List.getElem?_set_self, h]

theorem getD_set_ne {α : Type} (l : List α) {i j : ℕ} (v d : α) (h : i ≠ j) :
    (l.set i v).getD j d = l.getD j d := by
  simp [List.getD_eq_getElem?_getD, List.getElem?_set_ne h]

theorem getD_map_lt {α β : Type} (f : α → β) (l : List α) (i : ℕ) (da : α) (db : β)
    (h : i < l.length) : (l.map f).getD i db = f (l.getD i da) := by
  rw [List.getD_eq_getElem?_getD, List.getElem?_map, List.getD_eq_getElem?_getD,
    List.getElem?_eq_getElem h]
  rfl

theorem zipWith_map_same {α β γ δ : Type} (f : β → γ → δ) (g : α → β) (h : α → γ) :
    ∀ l : List α, List.zipWith f (l.map g) (l.map h) = l.map fun x => f (g x) (h x)
  | [] => rfl
  | a :: t => by simp [zipWith_map_same f g h t]

theorem foldl_min_nonneg : ∀ (l : List ℝ) (v : ℝ), 0 ≤ v → (∀ x ∈ l, 0 ≤ x) →
    0 ≤ l.foldl min v
  | [], v, hv, _ => hv
  | a :: t, v, hv, h => by
      rw [List.foldl_cons]
      exact foldl_min_nonneg t (min v a) (le_min hv (h a (by simp)))
        fun x hx => h x (by simp [hx])

theorem listMin_nonneg (l : List ℝ) (h : ∀ x ∈ l, 0 ≤ x) : 0 ≤ listMin l := by
  cases l with
  | nil => exact le_refl 0
  | cons v t =>
      exact foldl_min_nonneg t v (h v (by simp)) fun x hx => h x (by simp [hx])

namespace Cut

theorem decodeVertices_encode :
    ∀ vs : List (ℝ × ℝ),
      decodeVertices (vs.map fun v => Json.arr [Json.num v.1, Json.num v.2]) = some vs
  | [] => rfl
  | v :: t => by simp [decodeVertices, decodeVertex, decodeVertices_encode t]

/-- C8: serialising a `Cut2D` with `to_json_str` and reloading the result with
`load_cut_json` yields a cut with the same name and vertices, so
`is_point_inside` agrees with the original cut at every probe point, for every
behaviour of the external matplotlib `contains_point` predicate. -/
theorem cut2d_json_roundtrip (c : Cut2D) (contains : List (ℝ × ℝ) → ℝ × ℝ → Bool)
    (pt : ℝ × ℝ) :
    load_cut_json (to_json_str c) = some c ∧
      ∀ c2 : Cut2D, load_cut_json (to_json_str c) = some c2 →
        is_point_inside contains c2 pt = is_point_inside contains c pt := by
  have hload : load_cut_json (to_json_str c) = some c := by
    simp [load_cut_json, to_json_str, lookupKey, decodeVertices_encode]
  refine ⟨hload, fun c2 h2 => ?_⟩
  rw [hload] at h2
  cases h2
  rfl

/-- C8 witness: the round-trip theorem applied to a concrete one-vertex cut
with a constant containment predicate. -/
theorem cut2d_json_roundtrip_witness :
    load_cut_json (to_json_str ⟨("cut"), [(1, 2)]⟩) = some ⟨("cut"), [(1, 2)]⟩ :=
  (cut2d_json_roundtrip ⟨("cut"), [(1, 2)]⟩ (fun _ _ => true) (0, 0)).1

end Cut

namespace Correction

theorem foldl_fillCell_t_final (data : List GarfRow) (c : ℕ) :
    ∀ (l : List ℕ) (s : GenState),
      (l.foldl (fun t row => fillCell data t c row) s).t_final = s.t_final
  | [], _ => rfl
  | r :: tl, s => by
      rw [List.foldl_cons, foldl_fillCell_t_final data c tl]
      rfl

theorem fillChunk_t_final (data : List GarfRow) (c : ℕ) (s : GenState) :
    (fillChunk data c s).t_final = s.t_final :=
  foldl_fillCell_t_final data c (List.range 55) s

theorem foldl_fillChunk_t_final (data : List GarfRow) :
    ∀ (l : List ℕ) (s : GenState),
      (l.foldl (fun t c => fillChunk data c t) s).t_final = s.t_final
  | [], _ => rfl
  | c :: tl, s => by
      rw [List.foldl_cons, foldl_fillChunk_t_final data tl, fillChunk_t_final]

theorem fillLoop_t_final (data : List GarfRow) (n : ℕ) (s : GenState) :
    (fillLoop data n s).t_final = s.t_final :=
  foldl_fillChunk_t_final data (List.range n) s

theorem stateAfterFill_t_final (data : List GarfRow) :
    (stateAfterFill data).t_final = fun _ _ => 0 := by
  show (fillLoop data (data.length / 55) initState).t_final = fun _ _ => 0
  rw [fillLoop_t_final]
  rfl

/-- C9: the statement `t_final *= ...` of generate.py line 52 has no effect:
`t_final` is still the zero array after the fill and midpoint loops (nothing
ever assigns into it), the scaling therefore maps the state to itself, and the
generated correction grid is identical with and without the statement, for
every Garfield input, scale factor, and behaviour of the external interpolator
and contour constructors. -/
theorem t_final_line_noop (data : List GarfRow) (scale : ℝ)
    (mkInterp : Arr2 (ℝ × ℝ × ℝ) → ℝ → ℝ → ℝ × ℝ × ℝ)
    (mkContour : Arr2 ℝ → ℝ → ℝ → ℝ) :
    generate_electron_correction true data scale mkInterp mkContour =
      generate_electron_correction false data scale mkInterp mkContour ∧
    (stateAfterFill data).t_final = (fun _ _ => 0) ∧
    applyTLine scale (stateAfterFill data) = stateAfterFill data := by
  have ht := stateAfterFill_t_final data
  have hfun : (fun a b => (stateAfterFill data).t_final a b * scale) =
      (stateAfterFill data).t_final := by
    funext a b
    rw [ht]
    simp
  have happ : applyTLine scale (stateAfterFill data) = stateAfterFill data := by
    simp only [applyTLine, hfun]
  refine ⟨?_, ht, happ⟩
  simp [generate_electron_correction, happ]

theorem linspace_rho (i : ℕ) : linspace 0 275 276 i = (i : ℝ) := by
  unfold linspace
  rw [show ((276 : ℕ) : ℝ) - 1 = 275 by norm_num, zero_add, sub_zero, mul_comm,
    mul_div_assoc, div_self (by norm_num : (275 : ℝ) ≠ 0), mul_one]

theorem linspace_z (i : ℕ) : linspace 0 1000 1001 i = (i : ℝ) := by
  unfold linspace
  rw [show ((1001 : ℕ) : ℝ) - 1 = 1000 by norm_num, zero_add, sub_zero, mul_comm,
    mul_div_assoc, div_self (by norm_num : (1000 : ℝ) ≠ 0), mul_one]

/-- C3 counterexample: the generator does **not** evaluate the bilinear
interpolator at the inverted initial radius.  With a contour inversion that
returns initial radius 15 everywhere and an interpolator returning its radial
argument in every channel, the grid cell at `(rho = 5, z = 0)` differs from
the value the claim prescribes (the shifts come out as 10 = rho_cor, not 15 =
rho_initial). -/
theorem grid_lookup_at_initial_rho_cex :
    correction_grid invEx interpEx 5 0 ≠ claimed_grid invEx interpEx 5 0 := by
  intro h
  simp only [correction_grid, claimed_grid, correction_cell, claimed_cell, invEx,
    interpEx, linspace, Prod.mk.injEq] at h
  norm_num at h

/-- C3 amended: for every target cell `(ridx, zidx)` of the correction grid
(`rho = ridx` mm, `z = zidx` mm), the generator inverts the contour to get the
initial radius, stores `rho_cor = rho_initial - rho` in channel 0, and
evaluates the bilinear interpolator for the transverse and time shifts at
`(zg, rho_cor)` — i.e. at the radial correction, not at the initial radius —
where `zg` is the rescaled Garfield coordinate. -/
theorem grid_lookup_at_rho_cor (initialRho : ℝ → ℝ → ℝ)
    (interp : ℝ → ℝ → ℝ × ℝ × ℝ) (ridx zidx : ℕ)
    (h1 : ridx < 276) (h2 : zidx < 1001) :
    correction_grid initialRho interp ridx zidx =
      (initialRho (zidx : ℝ) (ridx : ℝ) - (ridx : ℝ),
       (interp ((1 - (zidx : ℝ) * 0.001) * 970 + 30)
          (initialRho (zidx : ℝ) (ridx : ℝ) - (ridx : ℝ))).2.1,
       (interp ((1 - (zidx : ℝ) * 0.001) * 970 + 30)
          (initialRho (zidx : ℝ) (ridx : ℝ) - (ridx : ℝ))).2.2) := by
  simp only [correction_grid, correction_cell, linspace_rho, linspace_z]

/-- C3 witness: the amended theorem evaluated at the concrete cell (0, 0) with
the concrete inversion and interpolator of the counterexample setup. -/
theorem grid_lookup_at_rho_cor_witness :
    correction_grid invEx interpEx 0 0 = (15, 15, 15) := by
  have h := grid_lookup_at_rho_cor invEx interpEx 0 0 (by norm_num) (by norm_num)
  simpa [invEx, interpEx] using h

end Correction

namespace Phase5

theorem objective_nonneg (guess subset : List V3) : 0 ≤ objective guess subset := by
  unfold objective
  apply div_nonneg _ (Nat.cast_nonneg _)
  apply List.sum_nonneg
  intro x hx
  simp only [List.mem_map] at hx
  obtain ⟨s, _, rfl⟩ := hx
  apply listMin_nonneg
  intro y hy
  simp only [List.mem_map] at hy
  obtain ⟨gp, _, rfl⟩ := hy
  simp only [dist3]
  exact Real.sqrt_nonneg _

/-- C1 counterexample: the solver records emitted by `Phase5` carry the
minimiser output directly, which is expressed in degrees.  The record obtained
from the raw minimiser point `(170, 360, 1, 0, 0, 500)` has polar angle 170
(not in `[0, pi]`) and azimuthal angle 360 (not in `[0, 2*pi)`), refuting the
claimed radian ranges. -/
theorem solver_record_radians_cex :
    (emittedRecord ⟨0, 0, 0, 0, 0, 500⟩ ⟨170, 360, 1, 0, 0, 500⟩ [] []).1.polar = 170 ∧
    ¬ ((emittedRecord ⟨0, 0, 0, 0, 0, 500⟩ ⟨170, 360, 1, 0, 0, 500⟩ [] []).1.polar ≤ Real.pi) ∧
    (emittedRecord ⟨0, 0, 0, 0, 0, 500⟩ ⟨170, 360, 1, 0, 0, 500⟩ [] []).1.azimuth = 360 ∧
    ¬ ((emittedRecord ⟨0, 0, 0, 0, 0, 500⟩ ⟨170, 360, 1, 0, 0, 500⟩ [] []).1.azimuth
        < 2 * Real.pi) := by
  have hp : (emittedRecord ⟨0, 0, 0, 0, 0, 500⟩ ⟨170, 360, 1, 0, 0, 500⟩ [] []).1.polar
      = 170 := by
    norm_num [emittedRecord, clipParams, clamp, max_def, min_def]
  have ha : (emittedRecord ⟨0, 0, 0, 0, 0, 500⟩ ⟨170, 360, 1, 0, 0, 500⟩ [] []).1.azimuth
      = 360 := by
    norm_num [emittedRecord, clipParams, clamp, max_def, min_def]
  have hpi := Real.pi_lt_d2
  refine ⟨hp, ?_, ha, ?_⟩
  · rw [hp]
    intro h
    linarith
  · rw [ha]
    intro h
    linarith

/-- C1 amended: every record emitted by `Phase5` after the bounded Nelder-Mead
minimisation has its polar angle in `[0, 180]` degrees, its azimuthal angle in
`[0, 360]` degrees (bounds inclusive), its Brho in `[0, 5]` T·m (hence
nonnegative), and a nonnegative objective value. -/
theorem solver_record_bounds (init raw : FitParams) (guess subset : List V3) :
    0 ≤ (emittedRecord init raw guess subset).1.polar ∧
    (emittedRecord init raw guess subset).1.polar ≤ 180 ∧
    0 ≤ (emittedRecord init raw guess subset).1.azimuth ∧
    (emittedRecord init raw guess subset).1.azimuth ≤ 360 ∧
    0 ≤ (emittedRecord init raw guess subset).1.brho ∧
    (emittedRecord init raw guess subset).1.brho ≤ 5 ∧
    0 ≤ (emittedRecord init raw guess subset).2 := by
  have hcl : ∀ lo hi x : ℝ, lo ≤ hi → lo ≤ clamp lo hi x ∧ clamp lo hi x ≤ hi := by
    intro lo hi x h
    exact ⟨le_min (le_max_right _ _) h, min_le_right _ _⟩
  simp only [emittedRecord, clipParams]
  exact ⟨(hcl 0 180 raw.polar (by norm_num)).1, (hcl 0 180 raw.polar (by norm_num)).2,
    (hcl 0 360 raw.azimuth (by norm_num)).1, (hcl 0 360 raw.azimuth (by norm_num)).2,
    (hcl 0 5 raw.brho (by norm_num)).1, (hcl 0 5 raw.brho (by norm_num)).2,
    objective_nonneg guess subset⟩

/-- C2: the ODE right-hand side of Phase5Test.py aborts (returns the sentinel,
modelled as `none`) exactly when the relativistic kinetic energy of the state
leaves `[0.001, 50]` MeV; at exactly `E = 50` the evaluation proceeds, at
`E = 50 + eps` (for any positive eps) it aborts, and an aborted trajectory is
assigned the objective value `+∞` (production-solver behaviour modelled from
the spec by `trialObjective`). -/
theorem ode_energy_guard (q m dens : ℝ) (Ef Bf : V3) (itp : ℝ → ℝ) (vec : PState)
    (ε : ℝ) :
    (motionIVP q m dens Ef Bf itp vec = none ↔
      kineticE (speed vec) < 0.001 ∨ 50 < kineticE (speed vec)) ∧
    (kineticE (speed vec) = 50 → motionIVP q m dens Ef Bf itp vec ≠ none) ∧
    (0 < ε → kineticE (speed vec) = 50 + ε → motionIVP q m dens Ef Bf itp vec = none) ∧
    (∀ subset : List V3, trialObjective none subset = ⊤) := by
  have hmain : motionIVP q m dens Ef Bf itp vec = none ↔
      kineticE (speed vec) < 0.001 ∨ 50 < kineticE (speed vec) := by
    simp only [motionIVP]
    split_ifs with h
    · exact iff_of_true rfl h
    · exact iff_of_false (by simp) h
  refine ⟨hmain, ?_, ?_, fun _ => rfl⟩
  · intro h50
    rw [Ne, hmain]
    rintro (h | h) <;> rw [h50] at h <;> norm_num at h
  · intro hε h50
    rw [hmain]
    right
    rw [h50]
    linarith

/-- C2 witness: a concrete state with speed `3/5` of light has kinetic energy
`amuev / 4 = 232.873507 = 50 + 182.873507` MeV, and the right-hand side
evaluated there aborts. -/
theorem ode_energy_guard_witness :
    motionIVP 1 1 1 (0, 0, 0) (0, 0, 0) (fun _ => 0)
      ⟨0, 0, 0, 2.99792e8 * (3 / 5), 0, 0⟩ = none := by
  have hsp : speed ⟨0, 0, 0, 2.99792e8 * (3 / 5), 0, 0⟩ = 2.99792e8 * (3 / 5) := by
    simp only [speed]
    rw [show (2.99792e8 * (3 / 5) : ℝ) ^ 2 + 0 ^ 2 + 0 ^ 2 = (2.99792e8 * (3 / 5)) ^ 2
      by norm_num]
    exact Real.sqrt_sq (by norm_num)
  have h50 : kineticE (speed ⟨0, 0, 0, 2.99792e8 * (3 / 5), 0, 0⟩) = 50 + 182.873507 := by
    rw [hsp]
    simp only [kineticE, Cspeed, amuev]
    rw [show (2.99792e8 * (3 / 5) / 2.99792e8 : ℝ) = 3 / 5 by norm_num]
    rw [show (1 - (3 / 5 : ℝ) ^ 2) = (4 / 5) ^ 2 by norm_num]
    rw [Real.sqrt_sq (by norm_num : (0 : ℝ) ≤ 4 / 5)]
    norm_num
  exact (ode_energy_guard 1 1 1 (0, 0, 0) (0, 0, 0) (fun _ => 0)
    ⟨0, 0, 0, 2.99792e8 * (3 / 5), 0, 0⟩ 182.873507).2.2.1 (by norm_num) h50

end Phase5

namespace FloatModel

/-- C4 counterexample: at `polar = 0` with `B = 3` and `radius = 1` the
expression `B * radius * 0.001 / sin(polar)` is `+inf` under IEEE float64
semantics — not NaN — so the `np.isnan` guard does not fire and Brho is *not*
set to 0 there, refuting the claim's parenthetical that `theta = 0` is a NaN
input mapped to 0. -/
theorem brho_nan_guard_cex :
    (brhoRaw 3 1 0).isnan = false ∧ brhoFinal 3 1 0 = FV.inf ∧ FV.inf ≠ FV.fin 0 := by
  have hraw : brhoRaw 3 1 0 = FV.inf := by
    simp only [brhoRaw, fdiv, Real.sin_zero]
    norm_num
  refine ⟨by rw [hraw]; rfl, ?_, by simp⟩
  rw [brhoFinal, hraw]
  rfl

/-- C4 amended: under IEEE float64 semantics, whenever the expression
`B * radius * 0.001 / sin(polar)` is NaN the guard of estimator.py lines
155-156 sets Brho to 0 (in particular when the numerator vanishes together
with `sin(polar)`, e.g. `radius = 0` at `polar = 0`); when `sin(polar) = 0`
but the numerator is nonzero the expression is a signed infinity and is kept. -/
theorem brho_nan_guard (B radius polar : ℝ) :
    ((brhoRaw B radius polar).isnan = true → brhoFinal B radius polar = FV.fin 0) ∧
    (Real.sin polar = 0 → B * radius * 0.001 = 0 → brhoFinal B radius polar = FV.fin 0) ∧
    (Real.sin polar = 0 → 0 < B * radius * 0.001 → brhoFinal B radius polar = FV.inf) ∧
    (Real.sin polar = 0 → B * radius * 0.001 < 0 → brhoFinal B radius polar = FV.ninf) := by
  refine ⟨fun h => ?_, fun hs h0 => ?_, fun hs hpos => ?_, fun hs hneg => ?_⟩
  · rw [brhoFinal, if_pos h]
  · have hraw : brhoRaw B radius polar = FV.nan := by
      rw [brhoRaw, hs, fdiv, if_neg (by simp), if_neg (by rw [h0]; exact lt_irrefl 0),
        if_neg (by rw [h0]; exact lt_irrefl 0)]
    rw [brhoFinal, hraw]
    rfl
  · have hraw : brhoRaw B radius polar = FV.inf := by
      rw [brhoRaw, hs, fdiv, if_neg (by simp), if_pos hpos]
    rw [brhoFinal, hraw]
    rfl
  · have hraw : brhoRaw B radius polar = FV.ninf := by
      rw [brhoRaw, hs, fdiv, if_neg (by simp), if_neg (not_lt.mpr (le_of_lt hneg)),
        if_pos hneg]
    rw [brhoFinal, hraw]
    rfl

/-- C4 witness: the amended theorem applied at `B = 0, radius = 0, polar = 0`,
where the expression is `0/0 = NaN` and Brho is indeed set to 0. -/
theorem brho_nan_guard_witness : brhoFinal 0 0 0 = FV.fin 0 :=
  (brho_nan_guard 0 0 0).2.1 Real.sin_zero (by norm_num)

end FloatModel

namespace Frib

/-- C7: trace pre-processing first copies `sample[1]` into `sample[0]` and
`sample[-2]` into `sample[-1]` of every trace (leaving interior samples
unchanged), then builds a baseline copy in which each sample strictly
exceeding `mean + 1.5 * sigma` of the (smoothed) trace is replaced by the mean
of the remaining unmasked samples, and the output is the smoothed trace minus
the Fourier low-pass filter `F` applied to that baseline copy. -/
theorem preprocess_structure (F : List ℝ → List ℝ) (traces : List (List ℝ))
    (t : List ℝ) (i : ℕ) :
    (preprocess_frib_traces F traces =
      traces.map fun tr => zipSub (edgeSmooth tr) (F (maskedBaseline (edgeSmooth tr)))) ∧
    (3 ≤ t.length →
      (edgeSmooth t).getD 0 0 = t.getD 1 0 ∧
      (edgeSmooth t).getD (t.length - 1) 0 = t.getD (t.length - 2) 0 ∧
      ∀ j, 0 < j → j < t.length - 1 → (edgeSmooth t).getD j 0 = t.getD j 0) ∧
    (i < t.length →
      (maskedBaseline t).getD i 0 =
        if mean t + 1.5 * stdDev t < t.getD i 0
        then mean (unmaskedAux (mean t) (stdDev t) t)
        else t.getD i 0) := by
  refine ⟨?_, ?_, ?_⟩
  · simp only [preprocess_frib_traces, List.map_map]
    rw [zipWith_map_same]
    simp [Function.comp]
  · intro h3
    simp only [edgeSmooth, List.length_set]
    refine ⟨?_, ?_, ?_⟩
    · rw [getD_set_ne _ _ _ (by omega : t.length - 1 ≠ 0),
        getD_set_self _ _ _ _ (by omega)]
    · rw [getD_set_self _ _ _ _ (by rw [List.length_set]; omega),
        getD_set_ne _ _ _ (by omega : (0 : ℕ) ≠ t.length - 2)]
    · intro j hj0 hj1
      rw [getD_set_ne _ _ _ (by omega : t.length - 1 ≠ j),
        getD_set_ne _ _ _ (by omega : (0 : ℕ) ≠ j)]
  · intro hi
    simp only [maskedBaseline]
    rw [getD_map_lt _ _ _ 0 0 hi]
    refine if_congr ?_ rfl rfl
    constructor <;> intro <;> linarith

/-- C7 witness: on the concrete trace `[0, 0, 0, 0, 25]` (mean 5, sigma 10)
the sample 25 strictly exceeds `mean + 1.5 * sigma = 20` and is replaced in
the baseline copy by the mean 0 of the unmasked samples. -/
theorem preprocess_structure_witness :
    (maskedBaseline [0, 0, 0, 0, 25]).getD 4 0 = 0 := by
  have hm : mean [0, 0, 0, 0, 25] = 5 := by
    norm_num [mean]
  have hsd : stdDev [0, 0, 0, 0, 25] = 10 := by
    simp only [stdDev, hm]
    rw [show (([0, 0, 0, 0, 25] : List ℝ).map fun x => (x - 5) ^ 2).sum
        / (([0, 0, 0, 0, 25] : List ℝ).length : ℝ) = 100 by norm_num]
    rw [show (100 : ℝ) = 10 ^ 2 by norm_num]
    exact Real.sqrt_sq (by norm_num)
  have h := (preprocess_structure id [] [0, 0, 0, 0, 25] 4).2.2 (by norm_num)
  rw [h, hm, hsd, if_pos (by norm_num [List.getD])]
  norm_num [unmaskedAux, mean]

end Frib

namespace Estimator

theorem rho_nonneg (p : Pt) : 0 ≤ rho p := by
  simp only [rho]
  exact Real.sqrt_nonneg _

theorem beamCount_zero : ∀ l : List Pt, beamCount 0 l = 0
  | [] => rfl
  | p :: t => by
      rw [beamCount, if_neg (not_lt.mpr (rho_nonneg p)), beamCount_zero t]

/-- C5: for a cluster passing the pre-checks, if the first index of the
maximum radius exceeds `0.9 * N` the direction is Forward exactly when
`rho_0 < rho_(N-1)` (else Backward); otherwise the direction is Backward
exactly when the circle-fit radius of the first half of the cluster is smaller
than that of the second half; and a Backward cluster has its point order
reversed. -/
theorem direction_inference (g : GeomOracle) (ep : EstimateParameters)
    (dp : DetectorParameters) (cl : Cluster)
    (h1 : ¬ tooFewPoints ep cl) (h2 : ¬ beamReject dp cl) :
    ((9 / 10 : ℝ) * (cl.data.length : ℝ) < (argmax (cl.data.map rho) : ℝ) →
      directionOf g cl.data =
        if (cl.data.map rho).headD 0 < (cl.data.map rho).getLastD 0
        then Direction.FORWARD else Direction.BACKWARD) ∧
    (¬ ((9 / 10 : ℝ) * (cl.data.length : ℝ) < (argmax (cl.data.map rho) : ℝ)) →
      (directionOf g cl.data = Direction.BACKWARD ↔
        beginRadius g cl.data < endRadius g cl.data)) ∧
    (directionOf g cl.data = Direction.BACKWARD →
      orient g cl.data = cl.data.reverse) := by
  refine ⟨?_, ?_, ?_⟩
  · intro h
    simp only [directionOf]
    rw [if_pos h]
  · intro h
    simp only [directionOf]
    rw [if_neg h]
    split_ifs with hbe
    · exact iff_of_true rfl hbe
    · exact iff_of_false (by decide) hbe
  · intro h
    simp only [orient]
    rw [if_pos h]

/-- C5 witness: the three-point cluster with radii `[1, 2, 3]` (maximum at
index 2, not beyond `0.9 * 3 = 2.7`) under the witness oracle (first-half fit
radius 1, second-half fit radius 2) is Backward and gets reversed. -/
theorem direction_inference_witness :
    directionOf gW clW.data = Direction.BACKWARD ∧
    orient gW clW.data = clW.data.reverse := by
  have hrho1 : rho ⟨1, 0, 0, 0⟩ = 1 := by
    simp only [rho]
    rw [show (1 : ℝ) ^ 2 + 0 ^ 2 = 1 by norm_num]
    exact Real.sqrt_one
  have hrho2 : rho ⟨2, 0, 0, 0⟩ = 2 := by
    simp only [rho]
    rw [show (2 : ℝ) ^ 2 + 0 ^ 2 = 2 ^ 2 by norm_num]
    exact Real.sqrt_sq (by norm_num)
  have hrho3 : rho ⟨3, 0, 0, 0⟩ = 3 := by
    simp only [rho]
    rw [show (3 : ℝ) ^ 2 + 0 ^ 2 = 3 ^ 2 by norm_num]
    exact Real.sqrt_sq (by norm_num)
  have hmap : clW.data.map rho = [1, 2, 3] := by
    simp [clW, hrho1, hrho2, hrho3]
  have hargmax : argmax [(1 : ℝ), 2, 3] = 2 := by
    show argmaxAux [2, 3] 1 0 1 = 2
    rw [argmaxAux, if_pos (by norm_num : (1 : ℝ) < 2),
      argmaxAux, if_pos (by norm_num : (2 : ℝ) < 3)]
    rfl
  have hcond : ¬ ((9 / 10 : ℝ) * (clW.data.length : ℝ) <
      (argmax (clW.data.map rho) : ℝ)) := by
    rw [hmap, hargmax]
    norm_num [clW]
  have hbe : beginRadius gW clW.data < endRadius gW clW.data := by
    simp only [beginRadius, endRadius, gW, clW]
    norm_num
  have hf1 : ¬ tooFewPoints epW clW := by
    simp [tooFewPoints, epW, clW]
  have hf2 : ¬ beamReject dpW clW := by
    simp only [beamReject, beamFraction, dpW, beamCount_zero]
    norm_num
  have h := direction_inference gW epW dpW clW hf1 hf2
  have hdir : directionOf gW clW.data = Direction.BACKWARD := (h.2.1 hcond).mpr hbe
  exact ⟨hdir, h.2.2 hdir⟩

/-- C6: `estimate_physics` emits nothing (the accumulator is unchanged) for
every cluster with fewer than `min_total_trajectory_points` points or with
more than 90% of its points within `beam_region_radius` of the z-axis; a
cluster with exactly `min_total_trajectory_points` points passes the size
check while one with one fewer point fails it and is rejected. -/
theorem precheck_rejection (g : GeomOracle) (cidx : ℤ) (cl : Cluster)
    (ia ic ii : ℝ) (ep : EstimateParameters) (dp : DetectorParameters)
    (results : Results) :
    (tooFewPoints ep cl →
      estimate_physics g cidx cl ia ic ii ep dp results = results) ∧
    (beamReject dp cl →
      estimate_physics g cidx cl ia ic ii ep dp results = results) ∧
    (cl.data.length = ep.min_total_trajectory_points → ¬ tooFewPoints ep cl) ∧
    (cl.data.length + 1 = ep.min_total_trajectory_points →
      tooFewPoints ep cl ∧
        estimate_physics g cidx cl ia ic ii ep dp results = results) := by
  have hrej1 : tooFewPoints ep cl →
      estimate_physics g cidx cl ia ic ii ep dp results = results := by
    intro h
    simp only [estimate_physics]
    rw [if_pos h]
  have hrej2 : beamReject dp cl →
      estimate_physics g cidx cl ia ic ii ep dp results = results := by
    intro h
    by_cases htf : tooFewPoints ep cl
    · exact hrej1 htf
    · simp only [estimate_physics]
      rw [if_neg htf, if_pos h]
  refine ⟨hrej1, hrej2, ?_, ?_⟩
  · intro h
    simp [tooFewPoints, h]
  · intro h
    have htf : tooFewPoints ep cl := by
      simp only [tooFewPoints]
      omega
    exact ⟨htf, hrej1 htf⟩

/-- C6 witness: with `min_total_trajectory_points = 2`, the two-point cluster
passes the size check and the one-point cluster is rejected with the
accumulator unchanged. -/
theorem precheck_rejection_witness :
    ¬ tooFewPoints epTwo clTwo ∧
    estimate_physics gW 0 clOne 0 0 0 epTwo dpW emptyResults = emptyResults := by
  refine ⟨(precheck_rejection gW 0 clTwo 0 0 0 epTwo dpW emptyResults).2.2.1
      (by norm_num [clTwo, epTwo]),
    ((precheck_rejection gW 0 clOne 0 0 0 epTwo dpW emptyResults).2.2.2
      (by norm_num [clOne, epTwo])).2⟩

/-- C10: `estimate_physics` is atomic with respect to the results accumulator:
on each of the four rejection paths (too few points, beam-region fraction
above 0.9, vertex radius beyond `max_distance_from_beam_axis`, zero first-arc
arclength) the accumulator is returned unchanged, and otherwise exactly one
element is appended to each of its 21 lists; consequently, if all lists have
equal length before the call they have equal length after it. -/
theorem results_atomic (g : GeomOracle) (cidx : ℤ) (cl : Cluster) (ia ic ii : ℝ)
    (ep : EstimateParameters) (dp : DetectorParameters) (results : Results) :
    (tooFewPoints ep cl →
      estimate_physics g cidx cl ia ic ii ep dp results = results) ∧
    (¬ tooFewPoints ep cl → beamReject dp cl →
      estimate_physics g cidx cl ia ic ii ep dp results = results) ∧
    (¬ tooFewPoints ep cl → ¬ beamReject dp cl →
      ep.max_distance_from_beam_axis < vertexRhoOf g (orient g cl.data) →
      estimate_physics g cidx cl ia ic ii ep dp results = results) ∧
    (¬ tooFewPoints ep cl → ¬ beamReject dp cl →
      ¬ (ep.max_distance_from_beam_axis < vertexRhoOf g (orient g cl.data)) →
      arclengthOf (orient g cl.data) = 0 →
      estimate_physics g cidx cl ia ic ii ep dp results = results) ∧
    (estimate_physics g cidx cl ia ic ii ep dp results = results ∨
      (estimate_physics g cidx cl ia ic ii ep dp results).lengths =
        results.lengths.map fun n => n + 1) ∧
    (∀ n : ℕ, (∀ k ∈ results.lengths, k = n) →
      (∀ k ∈ (estimate_physics g cidx cl ia ic ii ep dp results).lengths, k = n) ∨
      (∀ k ∈ (estimate_physics g cidx cl ia ic ii ep dp results).lengths, k = n + 1)) := by
  have key : estimate_physics g cidx cl ia ic ii ep dp results = results ∨
      (estimate_physics g cidx cl ia ic ii ep dp results).lengths =
        results.lengths.map fun n => n + 1 := by
    simp only [estimate_physics]
    split_ifs with ha hb hc hd
    · exact Or.inl rfl
    · exact Or.inl rfl
    · exact Or.inl rfl
    · exact Or.inl rfl
    · right
      simp [Results.push, Results.lengths]
  have r1 : tooFewPoints ep cl →
      estimate_physics g cidx cl ia ic ii ep dp results = results := by
    intro h
    simp only [estimate_physics]
    rw [if_pos h]
  have r2 : ¬ tooFewPoints ep cl → beamReject dp cl →
      estimate_physics g cidx cl ia ic ii ep dp results = results := by
    intro ha hb
    simp only [estimate_physics]
    rw [if_neg ha, if_pos hb]
  have r3 : ¬ tooFewPoints ep cl → ¬ beamReject dp cl →
      ep.max_distance_from_beam_axis < vertexRhoOf g (orient g cl.data) →
      estimate_physics g cidx cl ia ic ii ep dp results = results := by
    intro ha hb hc
    simp only [estimate_physics]
    rw [if_neg ha, if_neg hb, if_pos hc]
  have r4 : ¬ tooFewPoints ep cl → ¬ beamReject dp cl →
      ¬ (ep.max_distance_from_beam_axis < vertexRhoOf g (orient g cl.data)) →
      arclengthOf (orient g cl.data) = 0 →
      estimate_physics g cidx cl ia ic ii ep dp results = results := by
    intro ha hb hc hd
    simp only [estimate_physics]
    rw [if_neg ha, if_neg hb, if_neg hc, if_pos hd]
  refine ⟨r1, r2, r3, r4, key, ?_⟩
  intro n hn
  rcases key with h | h
  · left
    rw [h]
    exact hn
  · right
    intro k hk
    rw [h] at hk
    simp only [List.mem_map] at hk
    obtain ⟨a, ha, rfl⟩ := hk
    rw [hn a ha]

/-- C10 witness: the empty cluster is rejected by the size check and the
accumulator comes back unchanged. -/
theorem results_atomic_witness :
    estimate_physics gW 0 clZero 0 0 0 epTwo dpW emptyResults = emptyResults :=
  (results_atomic gW 0 clZero 0 0 0 epTwo dpW emptyResults).1
    (by norm_num [tooFewPoints, clZero, epTwo])

end Estimator

end Spyral
